import Mathlib

/-!
Shallow embedding of the Kalium incident-tracking app
(src/components/KaliumIncidenciasApp.tsx).

Conventions used throughout:
* Timestamps (`createdAt`, `updatedAt`) are modelled as `Nat` milliseconds since
  the epoch.  The source stores ISO strings and compares them through
  `+new Date(iso)`, which yields exactly this number; the mapping from ISO
  strings to epoch milliseconds is monotone and injective, so comparing the
  `Nat` values is the comparison the source performs.
* Calls to the environment (`new Date().toISOString()`, `uid()`) are modelled
  by explicit `now : Nat` and `newId : String` parameters: each mutating
  operation receives the values the environment would have produced.
* The four `status` strings form a closed union type in the source
  (`STATUS_OPTIONS`), modelled by the inductive `Status`; `Status.str`
  recovers the exact string the source stores and searches.
* JavaScript `Array.prototype.sort` (ES2019+) is a stable sort driven by a
  comparator; for a comparator `c` inducing a total preorder the stable-sorted
  output is unique, namely `List.insertionSort r` with `r a b := c a b ≤ 0`.
  Both comparators in the source (line 201 and 204) are of the form
  `key b - key a`, so `r a b := key b ≤ key a`, captured by `sortDescBy`.
-/

namespace Kalium

/-- The four incident states, `STATUS_OPTIONS` in the source
("Abierta", "En progreso", "Resuelta", "Cerrada"). -/
inductive Status where
  | abierta
  | enProgreso
  | resuelta
  | cerrada
deriving DecidableEq

/-- The string stored and displayed for each status (the literal members of
`STATUS_OPTIONS`). -/
def Status.str : Status → String
  | .abierta => "Abierta"
  | .enProgreso => "En progreso"
  | .resuelta => "Resuelta"
  | .cerrada => "Cerrada"

/-- The `Attachment` record from the source (`type` is the MIME type). -/
structure Attachment where
  id : String
  name : String
  type : String
  size : Nat
  url : String
deriving DecidableEq

/-- The optional `reporter` pair; both components optional. -/
structure Reporter where
  email : Option String
  discord : Option String
deriving DecidableEq

/-- The `Incident` record from the source. -/
structure Incident where
  id : String
  title : String
  description : String
  category : String
  server : String
  priority : String
  status : Status
  reporter : Option Reporter
  attachments : List Attachment
  createdAt : Nat
  updatedAt : Nat
deriving DecidableEq

/-- The `ContentBlock` record from the source. -/
structure ContentBlock where
  id : String
  title : String
  body : String
  updatedAt : Nat
deriving DecidableEq

/-- The settings record: three vocabulary lists. -/
structure Settings where
  categories : List String
  servers : List String
  priorities : List String
deriving DecidableEq

/-- The constant `DEFAULT_SETTINGS` from the source. -/
def DEFAULT_SETTINGS : Settings :=
  { categories := ["General", "Errores de conexión", "Economía",
      "Reportes de jugadores", "Sugerencias"]
    servers := ["Lobby", "Survival", "Skyblock", "Minijuegos"]
    priorities := ["Baja", "Media", "Alta", "Crítica"] }

/-- The localStorage key table `LS_KEYS`. -/
structure LSKeys where
  incidents : String
  contentBlocks : String
  settings : String

/-- The constant `LS_KEYS` from the source. -/
def LS_KEYS : LSKeys :=
  { incidents := "kalium_incidents"
    contentBlocks := "kalium_content_blocks"
    settings := "kalium_settings" }

/-- The argument of `createIncident`:
`Omit<Incident, "id" | "createdAt" | "updatedAt">`. -/
structure IncidentData where
  title : String
  description : String
  category : String
  server : String
  priority : String
  status : Status
  reporter : Option Reporter
  attachments : List Attachment

/-- The record literal built inside `createIncident` (line 149):
`{ id: uid("inc"), createdAt: now, updatedAt: now, ...data }`.
`data` cannot carry `id`, `createdAt` or `updatedAt` (they are omitted from
its type), so the spread only fills the remaining fields. -/
def newIncident (data : IncidentData) (newId : String) (now : Nat) : Incident :=
  { id := newId
    createdAt := now
    updatedAt := now
    title := data.title
    description := data.description
    category := data.category
    server := data.server
    priority := data.priority
    status := data.status
    reporter := data.reporter
    attachments := data.attachments }

/-- Operation `createIncident` (lines 147-152): builds the record and prepends it,
`setIncidents((prev) => [n, ...prev])`. -/
def createIncident (data : IncidentData) (newId : String) (now : Nat)
    (prev : List Incident) : List Incident :=
  newIncident data newId now :: prev

/-- The payload the Presentation layer passes to `createIncident`
(`Omit<Incident, ...> & { status?: Status }`, see `IncidentForm`'s
`onSubmit` type, line 507). -/
structure SubmitPayload where
  title : String
  description : String
  category : String
  server : String
  priority : String
  reporter : Option Reporter
  attachments : List Attachment
  status : Option Status := none

/-- The Portal call site (lines 246-251):
`createIncident({ ...payload, status: "Abierta" })` — the spread is followed
by `status: "Abierta"`, so any status in the payload is overridden. -/
def portalCreate (payload : SubmitPayload) (newId : String) (now : Nat)
    (prev : List Incident) : List Incident :=
  createIncident
    { title := payload.title
      description := payload.description
      category := payload.category
      server := payload.server
      priority := payload.priority
      status := Status.abierta
      reporter := payload.reporter
      attachments := payload.attachments }
    newId now prev

/-- The patch type `Partial<Incident>`: every field optional (`none` = key absent).
Setting `reporter` to the JavaScript value `undefined` through a present key
is not representable; no caller does that. -/
structure IncidentPatch where
  id : Option String := none
  title : Option String := none
  description : Option String := none
  category : Option String := none
  server : Option String := none
  priority : Option String := none
  status : Option Status := none
  reporter : Option (Option Reporter) := none
  attachments : Option (List Attachment) := none
  createdAt : Option Nat := none
  updatedAt : Option Nat := none

/-- The merge `{ ...it, ...patch, updatedAt: new Date().toISOString() }`
(line 156): present patch keys override, `updatedAt` is written last so it is
always the current time regardless of the patch. -/
def applyPatch (it : Incident) (p : IncidentPatch) (now : Nat) : Incident :=
  { id := p.id.getD it.id
    title := p.title.getD it.title
    description := p.description.getD it.description
    category := p.category.getD it.category
    server := p.server.getD it.server
    priority := p.priority.getD it.priority
    status := p.status.getD it.status
    reporter := p.reporter.getD it.reporter
    attachments := p.attachments.getD it.attachments
    createdAt := p.createdAt.getD it.createdAt
    updatedAt := now }

/-- Operation `updateIncident` (lines 154-158): map over the collection, patching the
records whose id matches. -/
def updateIncident (id : String) (p : IncidentPatch) (now : Nat)
    (l : List Incident) : List Incident :=
  l.map fun it => if it.id = id then applyPatch it p now else it

/-- Operation `deleteIncident` (lines 160-162): `prev.filter((i) => i.id !== id)`. -/
def deleteIncident (id : String) (l : List Incident) : List Incident :=
  l.filter fun i => decide (i.id ≠ id)

/-- The patch type `Partial<ContentBlock>`, the argument of `upsertBlock`. -/
structure BlockPatch where
  id : Option String := none
  title : Option String := none
  body : Option String := none
  updatedAt : Option Nat := none

/-- JavaScript `x || d` for an optional string `x`: the default is taken when
the value is absent (undefined) or the empty string (both falsy). -/
def jsOr (o : Option String) (d : String) : String :=
  match o with
  | none => d
  | some s => if s = "" then d else s

/-- Operation `upsertBlock` (lines 167-179).  The creation branch is taken when
`!block?.id` holds, i.e. when the argument, its `id`, or the id string itself
is falsy; it prepends a block with defaulted title and body.  Otherwise the
block with the given id is patched and its `updatedAt` refreshed. -/
def upsertBlock (block : Option BlockPatch) (newId : String) (now : Nat)
    (blocks : List ContentBlock) : List ContentBlock :=
  if (block.bind BlockPatch.id).getD "" = "" then
    { id := newId
      title := jsOr (block.bind BlockPatch.title) "Nuevo bloque"
      body := jsOr (block.bind BlockPatch.body) "Escribe contenido en **Markdown**."
      updatedAt := now } :: blocks
  else
    blocks.map fun x =>
      if some x.id = block.bind BlockPatch.id then
        { id := x.id
          title := (block.bind BlockPatch.title).getD x.title
          body := (block.bind BlockPatch.body).getD x.body
          updatedAt := now }
      else x

/-! ## QueryEngine: the derived view `filtered` (lines 188-207) -/

/-- An ASCII-only approximation of JavaScript `s.toLowerCase()`, viewing the
string as its character list.  `Char.toLower` lower-cases only the ASCII
range (the platform's Unicode Default Case Conversion also lower-cases
accented letters such as Í).  It is used only by the concrete pipeline
below, whose claims are insensitive to the text filter; the faithful
treatment of the text filter parameterizes the platform built-in instead
(see `matchesQueryP`). -/
def lower (s : String) : List Char :=
  s.toList.map Char.toLower

/-- An approximation of JavaScript `s.trim()` as a character list: strip
`Char.isWhitespace` characters from both ends (the platform also strips
further Unicode WhiteSpace such as NBSP).  Like `lower`, used only where
the claims are insensitive to the text filter; the faithful treatment
parameterizes the built-in (see `preFilteredP`). -/
def trimChars (s : String) : List Char :=
  ((s.toList.dropWhile Char.isWhitespace).reverse.dropWhile Char.isWhitespace).reverse

/-- JavaScript `hay.includes(needle)`: `needle` occurs contiguously in
`hay`.  The empty needle is contained in everything. -/
def containsSub (hay needle : List Char) : Bool :=
  match hay with
  | [] => needle.isEmpty
  | _ :: t => needle.isPrefixOf hay || containsSub t needle

/-- The candidate field list of the text filter (line 193), after
`.filter(Boolean)`: absent optional fields and empty strings are dropped. -/
def searchFields (i : Incident) : List String :=
  ([some i.title, some i.description, some i.category, some i.server,
    some i.priority, some i.status.str,
    i.reporter.bind Reporter.discord, i.reporter.bind Reporter.email].filterMap id).filter
    fun v => decide (v ≠ "")

/-- One incident passes the text filter (lines 192-196): some present field,
lower-cased, contains the lower-cased query. -/
def matchesQuery (query : String) (i : Incident) : Bool :=
  (searchFields i).any fun v => containsSub (lower v) (lower query)

/-- JavaScript `settings.priorities.indexOf(p)` (line 203): index of the first
occurrence, `-1` when absent. -/
def rank (ps : List String) (p : String) : Int :=
  match ps with
  | [] => -1
  | q :: t =>
    if q = p then 0
    else if rank t p = -1 then -1 else rank t p + 1

/-- The order a stable descending-by-key sort arranges: `a` may precede `b`
exactly when `key b ≤ key a`. -/
def keyLE {α β : Type} [LinearOrder β] (k : α → β) (a b : α) : Prop :=
  k b ≤ k a

instance {α β : Type} [LinearOrder β] (k : α → β) : DecidableRel (keyLE k) :=
  fun a b => inferInstanceAs (Decidable (k b ≤ k a))

instance {α β : Type} [LinearOrder β] (k : α → β) : IsTotal α (keyLE k) :=
  ⟨fun a b => le_total (k b) (k a)⟩

instance {α β : Type} [LinearOrder β] (k : α → β) : IsTrans α (keyLE k) :=
  ⟨fun _ _ _ h h' => le_trans h' h⟩

/-- JavaScript `list.sort((a, b) => key(b) - key(a))`: JavaScript's sort is stable and
the comparator `key b - key a` induces the total preorder `keyLE k`, so the
result is the unique stable descending-by-key order, which insertion sort
with `keyLE k` computes. -/
def sortDescBy {α β : Type} [LinearOrder β] (k : α → β) (l : List α) : List α :=
  l.insertionSort (keyLE k)

/-- Sort modes, `sortBy` state: `"fecha" | "prioridad"`. -/
inductive SortBy where
  | fecha
  | prioridad

/-- Stages 1-3 of `filtered` (lines 189-199): text filter (enabled when the
trimmed query is non-empty but matching the untrimmed query), then status
filter (`none` = "Todos"), then priority filter (`none` = "Todas"). -/
def preFiltered (incidents : List Incident) (query : String)
    (statusFilter : Option Status) (priorityFilter : Option String) :
    List Incident :=
  let l1 := if trimChars query = [] then incidents
    else incidents.filter (matchesQuery query)
  let l2 := match statusFilter with
    | none => l1
    | some s => l1.filter fun i => decide (i.status = s)
  match priorityFilter with
  | none => l2
  | some p => l2.filter fun i => decide (i.priority = p)

/-- The full derived view `filtered` (lines 188-207): filter stages followed
by the sort stage (lines 201-205). -/
def filteredView (incidents : List Incident) (query : String)
    (statusFilter : Option Status) (priorityFilter : Option String)
    (sortBy : SortBy) (priorities : List String) : List Incident :=
  match sortBy with
  | .fecha => sortDescBy (fun i => i.createdAt)
      (preFiltered incidents query statusFilter priorityFilter)
  | .prioridad => sortDescBy (fun i => rank priorities i.priority)
      (preFiltered incidents query statusFilter priorityFilter)

/-! ### The text filter with the platform built-ins as parameters

`String.prototype.toLowerCase` (Unicode Default Case Conversion) and
`String.prototype.trim` (Unicode WhiteSpace stripping) are ECMAScript
platform built-ins, not code of this repository.  Like `JSON.stringify`
and `JSON.parse` in the persistence model below, they enter the model as
parameters `toLowercase` and `trimF`; the facts about them that the proofs
need (lowering the empty string gives the empty string, lowering a
non-empty string is non-empty, trimming the empty string gives the empty
string) are stated as hypotheses, all true of the platform functions. -/

/-- One incident passes the text filter (lines 192-196), with the
platform's `toLowerCase` as a parameter: some present field, lower-cased,
contains the lower-cased query. -/
def matchesQueryP (toLowercase : String → String) (query : String)
    (i : Incident) : Bool :=
  (searchFields i).any fun v =>
    containsSub (toLowercase v).toList (toLowercase query).toList

/-- Stages 1-3 of `filtered` (lines 189-199) with the platform built-ins as
parameters: the text filter is enabled when the trimmed query is non-empty
(a falsy `query.trim()` disables it) but matches the untrimmed query; then
the status filter (`none` = "Todos") and the priority filter
(`none` = "Todas"). -/
def preFilteredP (toLowercase trimF : String → String)
    (incidents : List Incident) (query : String)
    (statusFilter : Option Status) (priorityFilter : Option String) :
    List Incident :=
  let l1 := if trimF query = "" then incidents
    else incidents.filter (matchesQueryP toLowercase query)
  let l2 := match statusFilter with
    | none => l1
    | some s => l1.filter fun i => decide (i.status = s)
  match priorityFilter with
  | none => l2
  | some p => l2.filter fun i => decide (i.priority = p)

/-- The full derived view `filtered` (lines 188-207) with the platform
built-ins as parameters: filter stages followed by the sort stage. -/
def filteredViewP (toLowercase trimF : String → String)
    (incidents : List Incident) (query : String)
    (statusFilter : Option Status) (priorityFilter : Option String)
    (sortBy : SortBy) (priorities : List String) : List Incident :=
  match sortBy with
  | .fecha => sortDescBy (fun i => i.createdAt)
      (preFilteredP toLowercase trimF incidents query statusFilter
        priorityFilter)
  | .prioridad => sortDescBy (fun i => rank priorities i.priority)
      (preFilteredP toLowercase trimF incidents query statusFilter
        priorityFilter)

/-- A concrete instance of the `toLowercase` parameter: the ASCII mapping,
which agrees with the platform on ASCII strings. -/
def lowerStr (s : String) : String :=
  ⟨s.toList.map Char.toLower⟩

/-- The Unicode simple lowercase mapping on the Latin-1 uppercase letters
À..Þ (excluding ×), falling back to the ASCII mapping elsewhere. -/
def toLowerLatin1 (c : Char) : Char :=
  if 0xC0 ≤ c.toNat ∧ c.toNat ≤ 0xDE ∧ c.toNat ≠ 0xD7 then
    Char.ofNat (c.toNat + 0x20)
  else c.toLower

/-- A concrete instance of the `toLowercase` parameter that also covers the
Latin-1 uppercase letters, agreeing with the platform on the Spanish
vocabulary of this app ("Crítica", "Economía", ...). -/
def lowerStrL1 (s : String) : String :=
  ⟨s.toList.map toLowerLatin1⟩

/-- A concrete instance of the `trimF` parameter: strip
`Char.isWhitespace` characters from both ends, agreeing with the platform
on strings whose ends carry only ASCII whitespace or none. -/
def trimStr (s : String) : String :=
  ⟨trimChars s⟩

/-! ## Persistence: `saveLS` / `loadLS` (lines 107-118)

The storage medium (`localStorage`) is a partial map from keys to raw
strings.  `JSON.stringify` and `JSON.parse` are platform built-ins, not code
of this repository, so they enter the model as parameters `stringifyF` and
`parseF`; the JSON data model itself is the inductive `Json`.  The encoders
below spell out what `JSON.stringify` produces for the app's record types
(keys carrying the JavaScript value `undefined` are dropped), and the
decoders invert them, witnessing that a persisted collection is recovered
field-for-field. -/

/-- The JSON data model (numbers restricted to integers, which is all the
app stores). -/
inductive Json where
  | null
  | str (s : String)
  | num (n : Int)
  | bool (b : Bool)
  | arr (xs : List Json)
  | obj (fields : List (String × Json))

/-- Operation `saveLS` (lines 107-109): `localStorage.setItem(key, JSON.stringify(value))`. -/
def saveLS (stringifyF : Json → String) (store : String → Option String)
    (key : String) (v : Json) : String → Option String :=
  fun k => if k = key then some (stringifyF v) else store k

/-- Operation `loadLS` (lines 111-118): read the raw string; a missing key or an empty
string (falsy) yields the fallback, a parse failure (the caught exception)
yields the fallback, otherwise the parsed value is returned unvalidated. -/
def loadLS (parseF : String → Option Json) (store : String → Option String)
    (key : String) (fallback : Json) : Json :=
  match store key with
  | none => fallback
  | some raw =>
    if raw = "" then fallback
    else match parseF raw with
      | some j => j
      | none => fallback

/-- Action of `JSON.stringify` on an `Attachment` object. -/
def encodeAttachment (a : Attachment) : Json :=
  .obj [("id", .str a.id), ("name", .str a.name), ("type", .str a.type),
    ("size", .num (Int.ofNat a.size)), ("url", .str a.url)]

/-- Inverse of `encodeAttachment`.  The encoder emits a fixed key sequence,
so position determines meaning; the decoders therefore match the object
structurally (any decoder that is a left inverse of the encoder witnesses
that serialization loses no information). -/
def decodeAttachment : Json → Option Attachment
  | .obj [(_, .str i), (_, .str n), (_, .str t),
      (_, .num (.ofNat sz)), (_, .str u)] => some ⟨i, n, t, sz, u⟩
  | _ => none

/-- Action of `JSON.stringify` on the reporter pair: undefined members are dropped. -/
def encodeReporter (r : Reporter) : Json :=
  .obj ((match r.email with | none => [] | some e => [("email", .str e)]) ++
    (match r.discord with | none => [] | some d => [("discord", .str d)]))

/-- Inverse of `encodeReporter` (a single present member is told apart by
its key). -/
def decodeReporter : Json → Option Reporter
  | .obj [] => some ⟨none, none⟩
  | .obj [(k, .str s)] =>
    if k = "email" then some ⟨some s, none⟩
    else if k = "discord" then some ⟨none, some s⟩
    else none
  | .obj [(_, .str e), (_, .str d)] => some ⟨some e, some d⟩
  | _ => none

/-- The status string parsed back into the closed union. -/
def decodeStatus (s : String) : Option Status :=
  if s = "Abierta" then some .abierta
  else if s = "En progreso" then some .enProgreso
  else if s = "Resuelta" then some .resuelta
  else if s = "Cerrada" then some .cerrada
  else none

/-- Decode every element of a JSON array, failing if any element fails. -/
def decodeList {α : Type} (f : Json → Option α) : List Json → Option (List α)
  | [] => some []
  | j :: js =>
    match f j, decodeList f js with
    | some x, some xs => some (x :: xs)
    | _, _ => none

/-- Action of `JSON.stringify` on an `Incident` object (an absent reporter key is
dropped). -/
def encodeIncident (i : Incident) : Json :=
  .obj ([("id", .str i.id), ("title", .str i.title),
    ("description", .str i.description), ("category", .str i.category),
    ("server", .str i.server), ("priority", .str i.priority),
    ("status", .str i.status.str)] ++
    (match i.reporter with
     | none => []
     | some r => [("reporter", encodeReporter r)]) ++
    [("attachments", .arr (i.attachments.map encodeAttachment)),
     ("createdAt", .num (Int.ofNat i.createdAt)),
     ("updatedAt", .num (Int.ofNat i.updatedAt))])

/-- Inverse of `encodeIncident` (an object with ten members carries no
reporter, one with eleven does). -/
def decodeIncident : Json → Option Incident
  | .obj ((_, .str id) :: (_, .str title) ::
      (_, .str de) :: (_, .str cat) ::
      (_, .str sv) :: (_, .str pr) ::
      (_, .str st) :: rest) =>
    match decodeStatus st with
    | none => none
    | some s =>
      match rest with
      | [(_, .arr as), (_, .num (.ofNat ca)), (_, .num (.ofNat ua))] =>
        match decodeList decodeAttachment as with
        | some atts => some ⟨id, title, de, cat, sv, pr, s, none, atts, ca, ua⟩
        | none => none
      | [(_, rj), (_, .arr as),
         (_, .num (.ofNat ca)), (_, .num (.ofNat ua))] =>
        match decodeReporter rj, decodeList decodeAttachment as with
        | some r, some atts =>
          some ⟨id, title, de, cat, sv, pr, s, some r, atts, ca, ua⟩
        | _, _ => none
      | _ => none
  | _ => none

/-- Action of `JSON.stringify` on the incident collection. -/
def encodeIncidents (l : List Incident) : Json :=
  .arr (l.map encodeIncident)

/-- Inverse of `encodeIncidents`. -/
def decodeIncidents : Json → Option (List Incident)
  | .arr xs => decodeList decodeIncident xs
  | _ => none

/-- Action of `JSON.stringify` on a `ContentBlock` object. -/
def encodeBlock (b : ContentBlock) : Json :=
  .obj [("id", .str b.id), ("title", .str b.title), ("body", .str b.body),
    ("updatedAt", .num (Int.ofNat b.updatedAt))]

/-- Inverse of `encodeBlock`. -/
def decodeBlock : Json → Option ContentBlock
  | .obj [(_, .str i), (_, .str t), (_, .str b),
      (_, .num (.ofNat u))] => some ⟨i, t, b, u⟩
  | _ => none

/-- Action of `JSON.stringify` on the content-block collection. -/
def encodeBlocks (l : List ContentBlock) : Json :=
  .arr (l.map encodeBlock)

/-- Inverse of `encodeBlocks`. -/
def decodeBlocks : Json → Option (List ContentBlock)
  | .arr xs => decodeList decodeBlock xs
  | _ => none

/-- A JSON string element parsed back. -/
def decodeStr : Json → Option String
  | .str s => some s
  | _ => none

/-- Action of `JSON.stringify` on the settings record. -/
def encodeSettings (s : Settings) : Json :=
  .obj [("categories", .arr (s.categories.map .str)),
    ("servers", .arr (s.servers.map .str)),
    ("priorities", .arr (s.priorities.map .str))]

/-- Inverse of `encodeSettings`. -/
def decodeSettings : Json → Option Settings
  | .obj [(_, .arr cs), (_, .arr ss), (_, .arr ps)] =>
    match decodeList decodeStr cs, decodeList decodeStr ss,
        decodeList decodeStr ps with
    | some c, some s, some p => some ⟨c, s, p⟩
    | _, _, _ => none
  | _ => none

/-- Store initialization, incidents (line 130):
`loadLS(LS_KEYS.incidents, [])`. -/
def initIncidents (parseF : String → Option Json)
    (store : String → Option String) : Json :=
  loadLS parseF store LS_KEYS.incidents (Json.arr [])

/-- Store initialization, content blocks (line 131):
`loadLS(LS_KEYS.contentBlocks, [])`. -/
def initBlocks (parseF : String → Option Json)
    (store : String → Option String) : Json :=
  loadLS parseF store LS_KEYS.contentBlocks (Json.arr [])

/-- Store initialization, settings (line 132):
`loadLS(LS_KEYS.settings, DEFAULT_SETTINGS)`. -/
def initSettings (parseF : String → Option Json)
    (store : String → Option String) : Json :=
  loadLS parseF store LS_KEYS.settings (encodeSettings DEFAULT_SETTINGS)

/-! ## Helper lemmas -/

theorem rank_eq_neg_one_of_not_mem (ps : List String) (p : String)
    (h : p ∉ ps) : rank ps p = -1 := by
  induction ps with
  | nil => rfl
  | cons q t ih =>
    have hq : q ≠ p := fun e => h (e ▸ List.mem_cons_self q t)
    have ht : p ∉ t := fun e => h (List.mem_cons_of_mem q e)
    simp [rank, hq, ih ht]

theorem rank_nonneg_of_mem (ps : List String) (p : String)
    (h : p ∈ ps) : 0 ≤ rank ps p := by
  induction ps with
  | nil => cases h
  | cons q t ih =>
    by_cases hq : q = p
    · simp [rank, hq]
    · have ht : p ∈ t := by
        cases List.mem_cons.mp h with
        | inl e => exact absurd e.symm hq
        | inr e => exact e
      have h0 := ih ht
      have hne : rank t p ≠ -1 := by omega
      simp only [rank, if_neg hq, if_neg hne]
      omega

theorem neg_one_le_rank (ps : List String) (p : String) : -1 ≤ rank ps p := by
  induction ps with
  | nil => simp [rank]
  | cons q t ih =>
    by_cases hq : q = p
    · simp [rank, hq]
    · by_cases hr : rank t p = -1
      · simp [rank, hq, hr]
      · simp only [rank, if_neg hq, if_neg hr]
        omega

theorem not_mem_of_rank_eq_neg_one (ps : List String) (p : String)
    (h : rank ps p = -1) : p ∉ ps := fun hm => by
  have := rank_nonneg_of_mem ps p hm
  omega

theorem filter_orderedInsert {α β : Type} [LinearOrder β] (k : α → β)
    (v : β) (a : α) (l : List α) :
    (List.orderedInsert (keyLE k) a l).filter (fun x => decide (k x = v)) =
      if k a = v then a :: l.filter (fun x => decide (k x = v))
      else l.filter (fun x => decide (k x = v)) := by
  induction l with
  | nil =>
    by_cases h : k a = v <;> simp [List.orderedInsert, List.filter, h]
  | cons b t ih =>
    by_cases hle : keyLE k a b
    · rw [List.orderedInsert_of_le _ _ hle]
      by_cases h : k a = v <;> simp [List.filter, h]
    · have hstep : List.orderedInsert (keyLE k) a (b :: t) =
          b :: List.orderedInsert (keyLE k) a t := by
        simp [List.orderedInsert, hle]
      have hlt : k a < k b := lt_of_not_le hle
      by_cases h : k a = v
      · have hb : k b ≠ v := by
          intro e
          rw [h, e] at hlt
          exact lt_irrefl v hlt
        rw [hstep]
        simp [List.filter, hb, ih, h]
      · rw [hstep]
        by_cases hb : k b = v <;> simp [List.filter, hb, ih, h]

theorem filter_sortDescBy {α β : Type} [LinearOrder β] (k : α → β)
    (v : β) (l : List α) :
    (sortDescBy k l).filter (fun x => decide (k x = v)) =
      l.filter (fun x => decide (k x = v)) := by
  induction l with
  | nil => rfl
  | cons a t ih =>
    have : sortDescBy k (a :: t) =
        List.orderedInsert (keyLE k) a (sortDescBy k t) := rfl
    rw [this, filter_orderedInsert]
    by_cases h : k a = v <;> simp [List.filter, h, ih]

theorem sorted_sortDescBy {α β : Type} [LinearOrder β] (k : α → β)
    (l : List α) : List.Sorted (keyLE k) (sortDescBy k l) :=
  List.sorted_insertionSort (keyLE k) l

theorem perm_sortDescBy {α β : Type} [LinearOrder β] (k : α → β)
    (l : List α) : List.Perm (sortDescBy k l) l :=
  List.perm_insertionSort (keyLE k) l

theorem preFiltered_sublist (incidents : List Incident) (query : String)
    (sf : Option Status) (pf : Option String) :
    List.Sublist (preFiltered incidents query sf pf) incidents := by
  have h1 : List.Sublist (if trimChars query = [] then incidents
      else incidents.filter (matchesQuery query)) incidents := by
    split
    · exact List.Sublist.refl _
    · exact List.filter_sublist _
  cases sf <;> cases pf <;> simp only [preFiltered] <;>
    first
      | exact h1
      | exact (List.filter_sublist _).trans h1
      | exact ((List.filter_sublist _).trans (List.filter_sublist _)).trans h1

theorem decodeAttachment_encode (a : Attachment) :
    decodeAttachment (encodeAttachment a) = some a := rfl

theorem decodeList_map {α : Type} (f : Json → Option α) (g : α → Json)
    (h : ∀ x, f (g x) = some x) (l : List α) :
    decodeList f (l.map g) = some l := by
  induction l with
  | nil => rfl
  | cons x xs ih => simp [decodeList, h, ih]

theorem decodeStatus_str (s : Status) : decodeStatus s.str = some s := by
  cases s <;> rfl

theorem decodeReporter_encode (r : Reporter) :
    decodeReporter (encodeReporter r) = some r := by
  obtain ⟨e, d⟩ := r
  cases e <;> cases d <;> rfl

theorem decodeIncident_encode (i : Incident) :
    decodeIncident (encodeIncident i) = some i := by
  obtain ⟨id, title, de, cat, sv, pr, st, rep, atts, ca, ua⟩ := i
  cases rep with
  | none =>
    simp [encodeIncident, decodeIncident, decodeStatus_str,
      decodeList_map decodeAttachment encodeAttachment decodeAttachment_encode]
  | some r =>
    obtain ⟨e, d⟩ := r
    cases e <;> cases d <;>
      simp [encodeIncident, decodeIncident, decodeStatus_str,
        encodeReporter, decodeReporter,
        decodeList_map decodeAttachment encodeAttachment decodeAttachment_encode]

theorem decodeIncidents_encode (l : List Incident) :
    decodeIncidents (encodeIncidents l) = some l := by
  simp [encodeIncidents, decodeIncidents,
    decodeList_map decodeIncident encodeIncident decodeIncident_encode]

theorem decodeBlock_encode (b : ContentBlock) :
    decodeBlock (encodeBlock b) = some b := rfl

theorem decodeBlocks_encode (l : List ContentBlock) :
    decodeBlocks (encodeBlocks l) = some l := by
  simp [encodeBlocks, decodeBlocks,
    decodeList_map decodeBlock encodeBlock decodeBlock_encode]

theorem decodeStrings_map (l : List String) :
    decodeList decodeStr (l.map .str) = some l :=
  decodeList_map decodeStr .str (fun _ => rfl) l

theorem decodeSettings_encode (s : Settings) :
    decodeSettings (encodeSettings s) = some s := by
  obtain ⟨c, sv, p⟩ := s
  simp [encodeSettings, decodeSettings, decodeStrings_map]

/-- A compact concrete incident used in witnesses and counterexamples:
all text fields are short space-free strings. -/
def mkInc (id pr : String) (t : Nat) : Incident :=
  ⟨id, id, id, "Cat", "Srv", pr, .abierta, none, [], t, t⟩

/-! ## Claims -/

/-- C1: every call to `createIncident` — in this program they all go through
the Portal call site `createIncident({ ...payload, status: "Abierta" })` —
yields a record with status `Abierta` (Open), `createdAt = updatedAt = now`,
the freshly generated id, and the remaining fields taken from the payload;
the record is prepended and the previous records keep their order. -/
theorem claim1_create_incident (payload : SubmitPayload) (newId : String)
    (now : Nat) (prev : List Incident) :
    ∃ rec, portalCreate payload newId now prev = rec :: prev ∧
      rec.status = Status.abierta ∧ rec.createdAt = now ∧
      rec.updatedAt = now ∧ rec.id = newId ∧
      rec.title = payload.title ∧ rec.description = payload.description ∧
      rec.category = payload.category ∧ rec.server = payload.server ∧
      rec.priority = payload.priority ∧ rec.reporter = payload.reporter ∧
      rec.attachments = payload.attachments :=
  ⟨_, rfl, rfl, rfl, rfl, rfl, rfl, rfl, rfl, rfl, rfl, rfl, rfl⟩

/-- C10: `createIncident` does not set `status` itself: the created record's
status is exactly the status of the supplied data (whatever it is), the
record is prepended unchanged otherwise, and the Open value `Abierta` is
supplied by the Presentation-layer caller (the Portal call site). -/
theorem claim10_status_from_caller :
    (∀ (data : IncidentData) (newId : String) (now : Nat),
      (newIncident data newId now).status = data.status) ∧
    (∀ (data : IncidentData) (newId : String) (now : Nat)
        (prev : List Incident),
      createIncident data newId now prev = newIncident data newId now :: prev) ∧
    (∀ (payload : SubmitPayload) (newId : String) (now : Nat)
        (prev : List Incident),
      ∃ rec, portalCreate payload newId now prev = rec :: prev ∧
        rec.status = Status.abierta) :=
  ⟨fun _ _ _ => rfl, fun _ _ _ _ => rfl, fun _ _ _ _ => ⟨_, rfl, rfl⟩⟩

/-- C4: `updateIncident` patches exactly the matched positions: a record
whose id differs from the given id is completely unchanged; a record whose
id matches becomes the patch merge, whose `updatedAt` is the current time
and in which every field absent from the patch keeps its old value and
every field present in the patch takes the patched value. -/
theorem claim4_update_frame :
    (∀ (l : List Incident) (id : String) (p : IncidentPatch) (now : Nat)
        (i : Nat) (it : Incident), l[i]? = some it →
      (it.id ≠ id → (updateIncident id p now l)[i]? = some it) ∧
      (it.id = id →
        (updateIncident id p now l)[i]? = some (applyPatch it p now))) ∧
    (∀ (it : Incident) (p : IncidentPatch) (now : Nat),
      (applyPatch it p now).updatedAt = now ∧
      (p.id = none → (applyPatch it p now).id = it.id) ∧
      (∀ v, p.id = some v → (applyPatch it p now).id = v) ∧
      (p.title = none → (applyPatch it p now).title = it.title) ∧
      (∀ v, p.title = some v → (applyPatch it p now).title = v) ∧
      (p.description = none →
        (applyPatch it p now).description = it.description) ∧
      (∀ v, p.description = some v → (applyPatch it p now).description = v) ∧
      (p.category = none → (applyPatch it p now).category = it.category) ∧
      (∀ v, p.category = some v → (applyPatch it p now).category = v) ∧
      (p.server = none → (applyPatch it p now).server = it.server) ∧
      (∀ v, p.server = some v → (applyPatch it p now).server = v) ∧
      (p.priority = none → (applyPatch it p now).priority = it.priority) ∧
      (∀ v, p.priority = some v → (applyPatch it p now).priority = v) ∧
      (p.status = none → (applyPatch it p now).status = it.status) ∧
      (∀ v, p.status = some v → (applyPatch it p now).status = v) ∧
      (p.reporter = none → (applyPatch it p now).reporter = it.reporter) ∧
      (∀ v, p.reporter = some v → (applyPatch it p now).reporter = v) ∧
      (p.attachments = none →
        (applyPatch it p now).attachments = it.attachments) ∧
      (∀ v, p.attachments = some v → (applyPatch it p now).attachments = v) ∧
      (p.createdAt = none →
        (applyPatch it p now).createdAt = it.createdAt) ∧
      (∀ v, p.createdAt = some v → (applyPatch it p now).createdAt = v)) := by
  constructor
  · intro l id p now i it hit
    constructor
    · intro hne
      rw [updateIncident, List.getElem?_map, hit]
      simp [hne]
    · intro he
      rw [updateIncident, List.getElem?_map, hit]
      simp [he]
  · intro it p now
    and_intros <;> intros <;> simp [applyPatch, *]

/-- A concrete patch touching only the title, used by witnesses. -/
def pTitleW : IncidentPatch := { title := some "nuevo" }

/-- Witness for C4 at a concrete collection, id and patch. -/
theorem claim4_update_frame_witness :
    ((mkInc "a" "Alta" 1).id ≠ "a" →
      (updateIncident "a" pTitleW 9 [mkInc "a" "Alta" 1])[0]? =
        some (mkInc "a" "Alta" 1)) ∧
    ((mkInc "a" "Alta" 1).id = "a" →
      (updateIncident "a" pTitleW 9 [mkInc "a" "Alta" 1])[0]? =
        some (applyPatch (mkInc "a" "Alta" 1) pTitleW 9)) :=
  claim4_update_frame.1 [mkInc "a" "Alta" 1] "a" pTitleW 9 0
    (mkInc "a" "Alta" 1) rfl

/-- A patch that sets `createdAt`, exercising the `Partial<Incident>` type
at full generality. -/
def pCreatedAtW : IncidentPatch := { createdAt := some 99 }

/-- A patch that sets `id`. -/
def pIdW : IncidentPatch := { id := some "b" }

/-- C5 counterexample: the claim quantifies over any patch, but
`{ ...it, ...patch, updatedAt: now }` lets a patch that carries `createdAt`
or `id` (both legal members of `Partial<Incident>`) overwrite them: patching
with `{createdAt: 99}` changes the record's `createdAt` from 5 to 99, and
patching with `{id: "b"}` changes its id from "a" to "b". -/
theorem claim5_counterexample :
    (updateIncident "a" pCreatedAtW 9 [mkInc "a" "Alta" 5]).map
        Incident.createdAt = [99] ∧
    ([mkInc "a" "Alta" 5]).map Incident.createdAt = [5] ∧ (99 : Nat) ≠ 5 ∧
    (updateIncident "a" pIdW 9 [mkInc "a" "Alta" 5]).map Incident.id = ["b"] ∧
    ([mkInc "a" "Alta" 5]).map Incident.id = ["a"] ∧ ("b" : String) ≠ "a" := by
  refine ⟨rfl, rfl, by decide, rfl, rfl, by decide⟩

/-- C5 (amended): for every `updateIncident` call whose patch does not carry
the `id` or `createdAt` keys — as is the case for every patch built in this
program — the id and createdAt of every record are unchanged. -/
theorem claim5_amended (l : List Incident) (id : String) (p : IncidentPatch)
    (now : Nat) (hid : p.id = none) (hca : p.createdAt = none) :
    (updateIncident id p now l).map Incident.id = l.map Incident.id ∧
    (updateIncident id p now l).map Incident.createdAt =
      l.map Incident.createdAt := by
  induction l with
  | nil => exact ⟨rfl, rfl⟩
  | cons a t ih =>
    have h1 : (if a.id = id then applyPatch a p now else a).id = a.id := by
      split <;> simp [applyPatch, hid]
    have h2 : (if a.id = id then applyPatch a p now else a).createdAt =
        a.createdAt := by
      split <;> simp [applyPatch, hca]
    refine ⟨?_, ?_⟩ <;>
      simp only [updateIncident, List.map_cons] at ih ⊢
    · rw [h1, ih.1]
    · rw [h2, ih.2]

/-- Witness for C5 (amended) at a concrete collection and patch. -/
theorem claim5_amended_witness :
    (updateIncident "a" pTitleW 9 [mkInc "a" "Alta" 5]).map Incident.id =
      ([mkInc "a" "Alta" 5]).map Incident.id ∧
    (updateIncident "a" pTitleW 9 [mkInc "a" "Alta" 5]).map
        Incident.createdAt = ([mkInc "a" "Alta" 5]).map Incident.createdAt :=
  claim5_amended [mkInc "a" "Alta" 5] "a" pTitleW 9 rfl rfl

/-- C6: update and delete with an id no record carries leave the collection
unchanged; deleting an id present exactly once shrinks the collection by
one and removes that id; deleting again is a no-op. -/
theorem claim6_unknown_id_and_delete :
    (∀ (l : List Incident) (id : String) (p : IncidentPatch) (now : Nat),
      (∀ it ∈ l, it.id ≠ id) → updateIncident id p now l = l) ∧
    (∀ (l : List Incident) (id : String),
      (∀ it ∈ l, it.id ≠ id) → deleteIncident id l = l) ∧
    (∀ (l : List Incident) (id : String),
      l.countP (fun it => decide (it.id = id)) = 1 →
      (deleteIncident id l).length + 1 = l.length ∧
      ∀ it ∈ deleteIncident id l, it.id ≠ id) ∧
    (∀ (l : List Incident) (id : String),
      deleteIncident id (deleteIncident id l) = deleteIncident id l) := by
  refine ⟨?_, ?_, ?_, ?_⟩
  · intro l id p now h
    induction l with
    | nil => rfl
    | cons a t ih =>
      have ha : a.id ≠ id := h a (List.mem_cons_self a t)
      have ht := ih fun it hit => h it (List.mem_cons_of_mem a hit)
      simp only [updateIncident, List.map_cons, if_neg ha]
      simp only [updateIncident] at ht
      rw [ht]
  · intro l id h
    exact List.filter_eq_self.mpr fun a ha => by simpa using h a ha
  · intro l id h
    constructor
    · have hlen := List.length_eq_countP_add_countP
        (fun it => decide (it.id = id)) (l := l)
      have hfil : (deleteIncident id l).length =
          l.countP fun it => decide ¬(decide (it.id = id) = true) := by
        rw [deleteIncident, ← List.countP_eq_length_filter]
        congr 1
        funext it
        exact decide_eq_decide.mpr (by simp)
      omega
    · intro it hit
      simpa using (List.mem_filter.mp hit).2
  · intro l id
    exact List.filter_eq_self.mpr fun a ha => (List.mem_filter.mp ha).2

/-- Witness for C6 at a concrete one-element collection. -/
theorem claim6_unknown_id_and_delete_witness :
    updateIncident "z" {} 3 [mkInc "a" "Alta" 1] = [mkInc "a" "Alta" 1] ∧
    deleteIncident "z" [mkInc "a" "Alta" 1] = [mkInc "a" "Alta" 1] ∧
    ((deleteIncident "a" [mkInc "a" "Alta" 1]).length + 1 =
        ([mkInc "a" "Alta" 1]).length ∧
      ∀ it ∈ deleteIncident "a" [mkInc "a" "Alta" 1], it.id ≠ "a") :=
  ⟨claim6_unknown_id_and_delete.1 [mkInc "a" "Alta" 1] "z" {} 3 (by decide),
   claim6_unknown_id_and_delete.2.1 [mkInc "a" "Alta" 1] "z" (by decide),
   claim6_unknown_id_and_delete.2.2.1 [mkInc "a" "Alta" 1] "a" (by decide)⟩

/-- C9 counterexample: creating a content block with no explicit title does
not default the title to "Untitled block"; the source defaults it to
"Nuevo bloque" (line 171). -/
theorem claim9_counterexample :
    (upsertBlock (some {}) "blk1" 5 []).map ContentBlock.title =
      ["Nuevo bloque"] ∧
    ("Nuevo bloque" : String) ≠ "Untitled block" :=
  ⟨rfl, by decide⟩

/-- C9 (amended): creating a content block with no explicit title or body —
whether the argument is absent or the empty patch the Content tab passes —
prepends a block with default title "Nuevo bloque", the placeholder
Markdown body, the generated id, and `updatedAt` set to the current time. -/
theorem claim9_amended (blocks : List ContentBlock) (newId : String)
    (now : Nat) :
    upsertBlock (some {}) newId now blocks =
      { id := newId, title := "Nuevo bloque",
        body := "Escribe contenido en **Markdown**.",
        updatedAt := now } :: blocks ∧
    upsertBlock none newId now blocks =
      { id := newId, title := "Nuevo bloque",
        body := "Escribe contenido en **Markdown**.",
        updatedAt := now } :: blocks :=
  ⟨rfl, rfl⟩

theorem title_mem_searchFields (i : Incident) (h : i.title ≠ "") :
    i.title ∈ searchFields i := by
  apply List.mem_filter.mpr
  constructor
  · exact List.mem_filterMap.mpr ⟨some i.title, by simp, rfl⟩
  · simpa using h

theorem toList_eq_nil (s : String) (h : s.toList = []) : s = "" := by
  cases s with
  | mk data =>
    simp only [String.toList] at h
    subst h
    rfl

theorem mapString_eq_empty (f : Char → Char) (s : String)
    (h : (⟨s.toList.map f⟩ : String) = "") : s = "" := by
  cases s with
  | mk data =>
    cases data with
    | nil => rfl
    | cons c t =>
      have h2 : f c :: t.map f = [] := congrArg String.data h
      exact absurd h2 (List.cons_ne_nil _ _)

/-- C3 counterexample: the query `" "` is non-empty and is a
case-insensitive substring of no field of the incident, yet the derived
view is not empty — `query.trim()` is empty, so the text filter is
disabled and every incident passes.  The platform built-ins are
instantiated at concrete functions that agree with JavaScript on every
string this counterexample touches (all ASCII): `" ".trim()` is `""` and
lower-casing these ASCII fields is the ASCII mapping. -/
theorem claim3_counterexample :
    (" " : String) ≠ "" ∧
    trimStr " " = "" ∧
    (∀ f ∈ searchFields (mkInc "bug" "Alta" 1),
      containsSub (lowerStr f).toList (lowerStr " ").toList = false) ∧
    filteredViewP lowerStr trimStr [mkInc "bug" "Alta" 1] " " none none
      .fecha DEFAULT_SETTINGS.priorities ≠ [] := by
  refine ⟨by decide, by decide, by decide, by decide⟩

/-- C3 (amended): with both filters at "all" and the platform's
`toLowerCase` and `trim` as parameters (constrained only by facts true of
the ECMAScript built-ins): (1) any incident whose lower-cased title
contains the lower-cased query is in the derived view, for every query —
including whitespace-only ones, which disable the filter; (2) a query
whose trimmed form is non-empty and which is a case-insensitive substring
of no present field of any incident yields the empty view. -/
theorem claim3_amended :
    (∀ (toLowercase trimF : String → String),
      toLowercase "" = "" →
      (∀ s, toLowercase s = "" → s = "") →
      trimF "" = "" →
      ∀ (incidents : List Incident) (query : String) (sb : SortBy)
        (ps : List String) (i : Incident), i ∈ incidents →
        containsSub (toLowercase i.title).toList
          (toLowercase query).toList = true →
        i ∈ filteredViewP toLowercase trimF incidents query none none sb ps) ∧
    (∀ (toLowercase trimF : String → String) (incidents : List Incident)
        (query : String) (sb : SortBy) (ps : List String),
      trimF query ≠ "" →
      (∀ i ∈ incidents, ∀ f ∈ searchFields i,
        containsSub (toLowercase f).toList
          (toLowercase query).toList = false) →
      filteredViewP toLowercase trimF incidents query none none sb ps = []) := by
  constructor
  · intro toLowercase trimF hlow0 hlow1 htr0 incidents query sb ps i hmem hsub
    have hpre : i ∈ preFilteredP toLowercase trimF incidents query none none := by
      simp only [preFilteredP]
      split
      · exact hmem
      case isFalse hq =>
        refine List.mem_filter.mpr ⟨hmem, ?_⟩
        have htitle : i.title ≠ "" := by
          intro h0
          rw [h0, hlow0] at hsub
          have hq0 : (toLowercase query).toList = [] := by
            simpa [containsSub, List.isEmpty_iff] using hsub
          have hq1 : query = "" :=
            hlow1 query (toList_eq_nil _ hq0)
          rw [hq1, htr0] at hq
          exact hq rfl
        exact List.any_eq_true.mpr
          ⟨i.title, title_mem_searchFields i htitle, hsub⟩
    cases sb with
    | fecha => exact (perm_sortDescBy _ _).mem_iff.mpr hpre
    | prioridad => exact (perm_sortDescBy _ _).mem_iff.mpr hpre
  · intro toLowercase trimF incidents query sb ps hq hall
    have hpre : preFilteredP toLowercase trimF incidents query none none = [] := by
      simp only [preFilteredP]
      rw [if_neg hq]
      refine List.filter_eq_nil_iff.mpr ?_
      intro i hi
      have : matchesQueryP toLowercase query i = false :=
        List.any_eq_false.mpr fun v hv => by simpa using hall i hi v hv
      simp [this]
    cases sb with
    | fecha => simp [filteredViewP, hpre, sortDescBy]
    | prioridad => simp [filteredViewP, hpre, sortDescBy]

/-- Witness for C3 (amended): with a `toLowercase` instance covering the
Latin-1 letters, the upper-case accented query "CRÍTICA" finds the title
"Crítica" — the platform's behavior on this app's Spanish data; and a
query occurring nowhere yields the empty view. -/
theorem claim3_amended_witness :
    mkInc "Crítica" "Alta" 1 ∈ filteredViewP lowerStrL1 trimStr
      [mkInc "Crítica" "Alta" 1] "CRÍTICA" none none .fecha
      DEFAULT_SETTINGS.priorities ∧
    filteredViewP lowerStr trimStr [mkInc "bug" "Alta" 1] "zzz" none none
      .fecha DEFAULT_SETTINGS.priorities = [] :=
  ⟨claim3_amended.1 lowerStrL1 trimStr rfl
      (fun s h => mapString_eq_empty toLowerLatin1 s h) rfl
      [mkInc "Crítica" "Alta" 1] "CRÍTICA" .fecha
      DEFAULT_SETTINGS.priorities (mkInc "Crítica" "Alta" 1)
      (by decide) (by decide),
   claim3_amended.2 lowerStr trimStr [mkInc "bug" "Alta" 1] "zzz" .fecha
      DEFAULT_SETTINGS.priorities (by decide) (by decide)⟩

/-- C2: the sort stage of the derived view. By date the view is
non-increasing in `createdAt`; by priority it is non-increasing in the
vocabulary index (`rank`), where an absent label ranks `-1` (below every
recognized label, which ranks `≥ 0`), so unranked incidents sort after all
ranked ones; both sorts are stable: the view's records of any fixed key
are exactly the filtered records of that key in their original relative
order (`preFiltered` is an order-preserving sublist of the collection).
The concrete scenario: by date [A,B,C] sorts to [C,B,A], by priority to
[C,A,B]. -/
theorem claim2_sort_stage :
    (∀ (incidents : List Incident) (query : String) (sf : Option Status)
        (pf : Option String) (ps : List String),
      List.Pairwise (fun a b => b.createdAt ≤ a.createdAt)
        (filteredView incidents query sf pf .fecha ps)) ∧
    (∀ (incidents : List Incident) (query : String) (sf : Option Status)
        (pf : Option String) (ps : List String) (t : Nat),
      (filteredView incidents query sf pf .fecha ps).filter
          (fun i => decide (i.createdAt = t)) =
        (preFiltered incidents query sf pf).filter
          (fun i => decide (i.createdAt = t))) ∧
    (∀ (incidents : List Incident) (query : String) (sf : Option Status)
        (pf : Option String) (ps : List String),
      List.Pairwise (fun a b => rank ps b.priority ≤ rank ps a.priority)
        (filteredView incidents query sf pf .prioridad ps)) ∧
    (∀ (incidents : List Incident) (query : String) (sf : Option Status)
        (pf : Option String) (ps : List String) (r : Int),
      (filteredView incidents query sf pf .prioridad ps).filter
          (fun i => decide (rank ps i.priority = r)) =
        (preFiltered incidents query sf pf).filter
          (fun i => decide (rank ps i.priority = r))) ∧
    (∀ (ps : List String) (p : String),
      (p ∉ ps → rank ps p = -1) ∧ (p ∈ ps → 0 ≤ rank ps p)) ∧
    (∀ (incidents : List Incident) (query : String) (sf : Option Status)
        (pf : Option String) (ps : List String),
      List.Pairwise (fun a b => a.priority ∉ ps → b.priority ∉ ps)
        (filteredView incidents query sf pf .prioridad ps)) ∧
    (∀ (incidents : List Incident) (query : String) (sf : Option Status)
        (pf : Option String),
      List.Sublist (preFiltered incidents query sf pf) incidents) ∧
    filteredView [mkInc "A" "Alta" 1, mkInc "B" "Baja" 2,
        mkInc "C" "Crítica" 3] "" none none .fecha
        ["Baja", "Media", "Alta", "Crítica"] =
      [mkInc "C" "Crítica" 3, mkInc "B" "Baja" 2, mkInc "A" "Alta" 1] ∧
    filteredView [mkInc "A" "Alta" 1, mkInc "B" "Baja" 2,
        mkInc "C" "Crítica" 3] "" none none .prioridad
        ["Baja", "Media", "Alta", "Crítica"] =
      [mkInc "C" "Crítica" 3, mkInc "A" "Alta" 1, mkInc "B" "Baja" 2] := by
  refine ⟨?_, ?_, ?_, ?_, ?_, ?_, ?_, ?_, ?_⟩
  · intro incidents query sf pf ps
    exact sorted_sortDescBy (fun i : Incident => i.createdAt)
      (preFiltered incidents query sf pf)
  · intro incidents query sf pf ps t
    exact filter_sortDescBy (fun i : Incident => i.createdAt) t
      (preFiltered incidents query sf pf)
  · intro incidents query sf pf ps
    exact sorted_sortDescBy (fun i : Incident => rank ps i.priority)
      (preFiltered incidents query sf pf)
  · intro incidents query sf pf ps r
    exact filter_sortDescBy (fun i : Incident => rank ps i.priority) r
      (preFiltered incidents query sf pf)
  · intro ps p
    exact ⟨rank_eq_neg_one_of_not_mem ps p, rank_nonneg_of_mem ps p⟩
  · intro incidents query sf pf ps
    have hs : List.Pairwise
        (fun a b => rank ps b.priority ≤ rank ps a.priority)
        (filteredView incidents query sf pf .prioridad ps) :=
      sorted_sortDescBy (fun i : Incident => rank ps i.priority)
        (preFiltered incidents query sf pf)
    refine List.Pairwise.imp ?_ hs
    intro a b hle ha
    have h1 : rank ps a.priority = -1 := rank_eq_neg_one_of_not_mem ps _ ha
    have h2 := neg_one_le_rank ps b.priority
    have h3 : rank ps b.priority = -1 := by omega
    exact not_mem_of_rank_eq_neg_one ps _ h3
  · intro incidents query sf pf
    exact preFiltered_sublist incidents query sf pf
  · decide
  · decide

/-- Witness for C2 instantiating the rank characterization. -/
theorem claim2_sort_stage_witness :
    rank ["Baja"] "zzz" = -1 ∧ 0 ≤ rank ["Baja"] "Baja" :=
  ⟨(claim2_sort_stage.2.2.2.2.1 ["Baja"] "zzz").1 (by decide),
   (claim2_sort_stage.2.2.2.2.1 ["Baja"] "Baja").2 (by decide)⟩

theorem loadLS_saveLS (stringifyF : Json → String)
    (parseF : String → Option Json) (store : String → Option String)
    (key : String) (v : Json) (fb : Json)
    (hp : parseF (stringifyF v) = some v) (h0 : stringifyF v ≠ "") :
    loadLS parseF (saveLS stringifyF store key v) key fb = v := by
  have hk : saveLS stringifyF store key v key = some (stringifyF v) := by
    simp [saveLS]
  simp [loadLS, hk, h0, hp]

/-- C7: persisting any collection (incidents, content blocks or settings,
including the empty ones) and reloading it recovers a collection equal to
the original in order and field values — under the platform guarantee that
`JSON.parse` inverts `JSON.stringify` on the serialized tree and that the
serialization is a non-empty string. -/
theorem claim7_roundtrip (stringifyF : Json → String)
    (parseF : String → Option Json) (store : String → Option String)
    (key : String) (l : List Incident) (bl : List ContentBlock)
    (st : Settings) (fbI fbB fbS : Json)
    (hI : parseF (stringifyF (encodeIncidents l)) = some (encodeIncidents l))
    (hI0 : stringifyF (encodeIncidents l) ≠ "")
    (hB : parseF (stringifyF (encodeBlocks bl)) = some (encodeBlocks bl))
    (hB0 : stringifyF (encodeBlocks bl) ≠ "")
    (hS : parseF (stringifyF (encodeSettings st)) = some (encodeSettings st))
    (hS0 : stringifyF (encodeSettings st) ≠ "") :
    decodeIncidents (loadLS parseF
      (saveLS stringifyF store key (encodeIncidents l)) key fbI) = some l ∧
    decodeBlocks (loadLS parseF
      (saveLS stringifyF store key (encodeBlocks bl)) key fbB) = some bl ∧
    decodeSettings (loadLS parseF
      (saveLS stringifyF store key (encodeSettings st)) key fbS) = some st := by
  refine ⟨?_, ?_, ?_⟩
  · rw [loadLS_saveLS stringifyF parseF store key _ fbI hI hI0,
      decodeIncidents_encode]
  · rw [loadLS_saveLS stringifyF parseF store key _ fbB hB hB0,
      decodeBlocks_encode]
  · rw [loadLS_saveLS stringifyF parseF store key _ fbS hS hS0,
      decodeSettings_encode]

/-- A toy serializer for the round-trip witness. -/
def stringifyW : Json → String :=
  fun j => match j with | .arr _ => "a" | _ => "o"

/-- A toy parser inverting `stringifyW` on the two values the witness
stores. -/
def parseW : String → Option Json :=
  fun s => if s = "a" then some (Json.arr [])
    else some (encodeSettings DEFAULT_SETTINGS)

/-- Witness for C7 at the empty collections and the default settings. -/
theorem claim7_roundtrip_witness :
    decodeIncidents (loadLS parseW (saveLS stringifyW (fun _ => none)
      "kalium_incidents" (encodeIncidents [])) "kalium_incidents"
      Json.null) = some [] ∧
    decodeBlocks (loadLS parseW (saveLS stringifyW (fun _ => none)
      "kalium_incidents" (encodeBlocks [])) "kalium_incidents"
      Json.null) = some [] ∧
    decodeSettings (loadLS parseW (saveLS stringifyW (fun _ => none)
      "kalium_incidents" (encodeSettings DEFAULT_SETTINGS))
      "kalium_incidents" Json.null) = some DEFAULT_SETTINGS :=
  claim7_roundtrip stringifyW parseW (fun _ => none) "kalium_incidents"
    [] [] DEFAULT_SETTINGS .null .null .null
    rfl (by decide) rfl (by decide) rfl (by decide)

/-- C8: `loadLS` is total and silent: for every stored state it returns
either the supplied fallback (missing key, empty raw string, or a raw
string the parser rejects — the caught exception) or the parsed value; and
Store initialization calls it once per collection with fallbacks `[]`,
`[]`, and `DEFAULT_SETTINGS` under the three fixed keys. -/
theorem claim8_load_total (parseF : String → Option Json)
    (store : String → Option String) :
    (∀ (key : String) (fb : Json),
      loadLS parseF store key fb = fb ∨
      ∃ raw, store key = some raw ∧
        parseF raw = some (loadLS parseF store key fb)) ∧
    initIncidents parseF store =
      loadLS parseF store LS_KEYS.incidents (Json.arr []) ∧
    initBlocks parseF store =
      loadLS parseF store LS_KEYS.contentBlocks (Json.arr []) ∧
    initSettings parseF store =
      loadLS parseF store LS_KEYS.settings (encodeSettings DEFAULT_SETTINGS) := by
  refine ⟨?_, rfl, rfl, rfl⟩
  intro key fb
  rcases hsk : store key with _ | raw
  · left
    simp [loadLS, hsk]
  · by_cases h0 : raw = ""
    · left
      simp [loadLS, hsk, h0]
    · rcases hp : parseF raw with _ | j
      · left
        simp [loadLS, hsk, h0, hp]
      · right
        refine ⟨raw, rfl, ?_⟩
        simp [loadLS, hsk, h0, hp]

end Kalium
